import Mathlib

/-!
Shallow embedding, in Lean 4, of the domain-availability-checking core of the
namerai repository:

* `src/lib/rate-limit.ts` — sliding-window and token-bucket rate limiters;
* the RDAP registry-client library (`checkDomain` over RDAP endpoints);
* `src/features/name-generator/services/domain-service.ts` — the domain
  availability service in its two variants (RDAP-backed and WhoisXML-backed):
  `validateDomain`, `checkWithRDAP`, `checkWithWhoisXML`, `checkDomain` and
  `checkDomains`.

Modelling conventions:

* JavaScript numbers holding milliseconds or HTTP status codes are modelled as
  `Int`; the token-bucket `tokens` value (a JS float produced by exact small
  divisions) is modelled as `ℚ`.
* JS strings are `String`; `toLowerCase`/`trim` are modelled character-wise on
  `String.data` (ASCII case folding, standard whitespace), mirroring what the
  source does on the domain strings it handles.
* `Date.now()` is an external input: stateful code takes a `clock : Nat → Int`
  and threads an index `k`; the k-th call of `Date.now()` returns `clock k`.
* `fetch` and JSON parsing are external inputs: an oracle function from the
  requested URL to either a thrown error (`Except.error`) or a response value.
  Thrown JS exceptions are modelled with `Except JsError`.
* As instrumentation, the batch loop additionally returns the list of registry
  request URLs issued (`calls`), the number of domains handed to the
  single-domain checker (`processed`), and whether the rate-limit abort branch
  ran (`aborted`).  These ghost fields record what the source merely does.
-/

/-! ### JS string primitives: toLowerCase, trim, includes -/

/-- ASCII lower-casing of one UTF-16 unit, as `String.prototype.toLowerCase`
acts on the ASCII domain strings handled by the source. -/
def jsLowerChar (c : Char) : Char :=
  if 65 ≤ c.toNat ∧ c.toNat ≤ 90 then Char.ofNat (c.toNat + 32) else c

/-- Whitespace test used by the model of `String.prototype.trim`. -/
def jsIsWs (c : Char) : Bool :=
  c.toNat = 32 || c.toNat = 9 || c.toNat = 10 || c.toNat = 13

/-- Model of `String.prototype.trim` on the character list. -/
def jsTrimList (l : List Char) : List Char :=
  ((l.dropWhile jsIsWs).reverse.dropWhile jsIsWs).reverse

/-- Model of `s.toLowerCase().trim()`, the normalization applied by every
`checkDomain` entry point (`const cleanDomain = domain.toLowerCase().trim()`). -/
def jsClean (s : String) : String :=
  ⟨jsTrimList (s.data.map jsLowerChar)⟩

/-- Is `pat` a prefix of `l`? (helper for the model of `String.prototype.includes`). -/
def jsStartsList : List Char → List Char → Bool
  | [], _ => true
  | _ :: _, [] => false
  | a :: as, b :: bs => a = b && jsStartsList as bs

/-- Does `l` contain `pat` as a contiguous run? -/
def jsContainsList (pat : List Char) : List Char → Bool
  | [] => jsStartsList pat []
  | c :: cs => jsStartsList pat (c :: cs) || jsContainsList pat cs

/-- Model of `s.includes(sub)`. -/
def jsIncludes (s sub : String) : Bool :=
  jsContainsList sub.data s.data

/-- Model of `o?.includes(sub)` coerced to a boolean (an absent string is falsy). -/
def jsIncludesOpt (o : Option String) (sub : String) : Bool :=
  match o with
  | none => false
  | some s => jsIncludes s sub

/-- Model of the JS idiom `s || d` for strings (empty string is falsy). -/
def jsOrStr (o : Option String) (d : String) : String :=
  match o with
  | none => d
  | some s => if s = "" then d else s

/-! ### validateDomain

`validateDomain` in `domain-service.ts` tests
`/^([a-zA-Z0-9]([a-zA-Z0-9\-]{0,61}[a-zA-Z0-9])?\.)+[a-zA-Z]{2,}$/`
and `domain.length <= 253`.  Because the label alternatives cannot contain a
dot, the regex matches exactly when the string splits at its dots into one or
more labels followed by a final all-alphabetic part of length at least 2; the
matcher below implements that decomposition directly. -/

def isAsciiAlpha (c : Char) : Bool :=
  (65 ≤ c.toNat && c.toNat ≤ 90) || (97 ≤ c.toNat && c.toNat ≤ 122)

def isAsciiAlphaNum (c : Char) : Bool :=
  isAsciiAlpha c || (48 ≤ c.toNat && c.toNat ≤ 57)

def isLabelChar (c : Char) : Bool :=
  isAsciiAlphaNum c || c.toNat = 45

/-- Split a character list at every dot (model of `String.prototype.split(".")`). -/
def splitDots : List Char → List (List Char)
  | [] => [[]]
  | c :: rest =>
    let r := splitDots rest
    if c.toNat = 46 then [] :: r
    else
      match r with
      | [] => [[c]]
      | h :: t => (c :: h) :: t

/-- One dot-free label: `[a-zA-Z0-9]([a-zA-Z0-9\-]{0,61}[a-zA-Z0-9])?`. -/
def matchesLabel : List Char → Bool
  | [] => false
  | [c] => isAsciiAlphaNum c
  | c :: rest =>
    isAsciiAlphaNum c && rest.length ≤ 62 && rest.dropLast.all isLabelChar &&
      isAsciiAlphaNum (rest.getLastD c)

/-- The final part: `[a-zA-Z]{2,}`. -/
def matchesTld (l : List Char) : Bool :=
  2 ≤ l.length && l.all isAsciiAlpha

/-- `validateDomain` from `domain-service.ts` (both variants share the code). -/
def validateDomain (domain : String) : Bool :=
  (let parts := splitDots domain.data
   2 ≤ parts.length && parts.dropLast.all matchesLabel &&
     matchesTld (parts.getLastD [])) &&
  domain.data.length ≤ 253

/-! ### Rate-limit library (`src/lib/rate-limit.ts`) -/

structure RateLimitConfig where
  maxRequests : Int
  windowMs : Int
deriving DecidableEq, Repr

structure RateLimitResult where
  allowed : Bool
  remaining : Int
  resetTime : Int
  retryAfter : Option Int
deriving DecidableEq, Repr

/-- `Math.ceil(a / b)` for integer `a` and positive integer `b` (the source
always divides by the literal 1000). -/
def jsCeilDiv (a b : Int) : Int := (a + b - 1) / b

/-- `Math.min` on the rationals that model JS floats. -/
def jsMin (a b : ℚ) : ℚ := if a ≤ b then a else b

/-- Sliding-window `isAllowed()`: prune timestamps outside the window, deny
when the surviving count reaches `maxRequests` (reporting the reset time from
the oldest surviving timestamp), otherwise record `now` and allow.  Returns
the result together with the updated stored timestamp list. -/
def slidingIsAllowed (cfg : RateLimitConfig) (ts : List Int) (now : Int) :
    RateLimitResult × List Int :=
  let windowStart := now - cfg.windowMs
  let ts' := ts.filter fun t => decide (windowStart < t)
  if cfg.maxRequests ≤ (ts'.length : Int) then
    let oldest := ts'.headD 0
    let resetTime := oldest + cfg.windowMs
    ({ allowed := false, remaining := 0, resetTime,
       retryAfter := some (jsCeilDiv (resetTime - now) 1000) }, ts')
  else
    let ts'' := ts' ++ [now]
    ({ allowed := true, remaining := max 0 (cfg.maxRequests - (ts''.length : Int)),
       resetTime := now + cfg.windowMs, retryAfter := none }, ts'')

/-- Sliding-window `getStatus()`: the same computation on a locally filtered
copy; the source writes nothing back to the stored state, so the model takes
the stored timestamps and returns only a `RateLimitResult`. -/
def slidingGetStatus (cfg : RateLimitConfig) (ts : List Int) (now : Int) :
    RateLimitResult :=
  let windowStart := now - cfg.windowMs
  let valid := ts.filter fun t => decide (windowStart < t)
  if cfg.maxRequests ≤ (valid.length : Int) then
    let oldest := valid.headD 0
    let resetTime := oldest + cfg.windowMs
    { allowed := false, remaining := 0, resetTime,
      retryAfter := some (jsCeilDiv (resetTime - now) 1000) }
  else
    { allowed := true, remaining := cfg.maxRequests - (valid.length : Int),
      resetTime := now + cfg.windowMs, retryAfter := none }

/-- Sliding-window `reset()`: the stored timestamp list becomes empty. -/
def slidingReset : List Int := []

/-- Stored state of the token-bucket limiter. -/
structure TBState where
  tokens : ℚ
  lastRefillTime : Int
deriving DecidableEq, Repr

/-- Token-bucket `refillTokens()`: add `timePassed * (maxRequests / windowMs)`
tokens, capped at `maxRequests`, and move `lastRefillTime` to `now`. -/
def refillTokens (cfg : RateLimitConfig) (st : TBState) (now : Int) : TBState :=
  let refillRate : ℚ := (cfg.maxRequests : ℚ) / (cfg.windowMs : ℚ)
  let timePassed : ℚ := ((now - st.lastRefillTime : Int) : ℚ)
  { tokens := jsMin (cfg.maxRequests : ℚ) (st.tokens + timePassed * refillRate),
    lastRefillTime := now }

/-- Token-bucket `isAllowed()`: refill, then consume one token when at least
one is present. -/
def tbIsAllowed (cfg : RateLimitConfig) (st : TBState) (now : Int) :
    RateLimitResult × TBState :=
  let st' := refillTokens cfg st now
  let resetTime := st'.lastRefillTime + cfg.windowMs
  if st'.tokens < 1 then
    ({ allowed := false, remaining := 0, resetTime,
       retryAfter := some (jsCeilDiv (resetTime - now) 1000) }, st')
  else
    ({ allowed := true, remaining := ⌊st'.tokens - 1⌋, resetTime,
       retryAfter := none }, { st' with tokens := st'.tokens - 1 })

/-- Token-bucket `getStatus()`: the source calls `this.refillTokens()`, which
writes `tokens` and `lastRefillTime` back into the stored state, so the model
returns the updated state alongside the result. -/
def tbGetStatus (cfg : RateLimitConfig) (st : TBState) (now : Int) :
    RateLimitResult × TBState :=
  let st' := refillTokens cfg st now
  let resetTime := st'.lastRefillTime + cfg.windowMs
  ({ allowed := decide (1 ≤ st'.tokens), remaining := ⌊st'.tokens⌋, resetTime,
     retryAfter := if st'.tokens < 1 then some (jsCeilDiv (resetTime - now) 1000)
                   else none }, st')

/-- Token-bucket `reset()`: full capacity, refill clock restarted at `now`. -/
def tbReset (cfg : RateLimitConfig) (now : Int) : TBState :=
  { tokens := (cfg.maxRequests : ℚ), lastRefillTime := now }

/-- `formatRateLimitError` from `src/lib/rate-limit.ts`. -/
def formatRateLimitError (result : RateLimitResult) : String :=
  let retryAfterSeconds := result.retryAfter.getD 0
  let minutes := retryAfterSeconds.ediv 60
  let seconds := retryAfterSeconds.tmod 60
  if 0 < minutes then
    s!"Rate limit exceeded. Try again in {minutes}m {seconds}s"
  else
    s!"Rate limit exceeded. Try again in {seconds}s"

/-! ### Shared domain-service data model -/

/-- `DomainStatus` (`"Available" | "Taken" | "Premium" | "Error"`); the RDAP
library only ever produces `Available`, `Taken` or `Error`. -/
inductive DomainStatus where
  | Available
  | Taken
  | Premium
  | Error
deriving DecidableEq, Repr

/-- `DomainResult` — what every lookup resolves to. -/
structure DomainResult where
  url : String
  status : DomainStatus
deriving DecidableEq, Repr

inductive DomainCheckErrorType where
  | rate_limit
  | api_error
  | network_error
deriving DecidableEq, Repr

/-- `DomainCheckError` — the single-slot recorded error (`lastError`). -/
structure DomainCheckError where
  type : DomainCheckErrorType
  message : String
deriving DecidableEq, Repr

/-- A thrown JS exception: its `name` and `message`, which are all the source
ever inspects. -/
structure JsError where
  name : String
  message : String
deriving DecidableEq, Repr

instance {ε α : Type} [DecidableEq ε] [DecidableEq α] :
    DecidableEq (Except ε α) := fun a b =>
  match a, b with
  | .ok x, .ok y => if h : x = y then .isTrue (by rw [h]) else .isFalse (by simp [h])
  | .error x, .error y => if h : x = y then .isTrue (by rw [h]) else .isFalse (by simp [h])
  | .ok _, .error _ => .isFalse (by simp)
  | .error _, .ok _ => .isFalse (by simp)

/-! ### RDAP registry-client library -/

/-- One entry of the `events` array of an RDAP payload. -/
structure RdapEvent where
  eventAction : String
  eventDate : String
deriving DecidableEq, Repr

/-- The fields of an RDAP JSON payload that the library reads
(`registrar?.objectClassName` and `events`). -/
structure RdapResponse where
  registrar : Option String
  events : Option (List RdapEvent)
deriving DecidableEq, Repr

/-- An HTTP response from an RDAP endpoint: the status code and the parsed
JSON body (`none` models `response.json()` rejecting, which the source maps to
`{}` via `.catch(() => ({}))`). -/
structure RdapHttpResp where
  status : Int
  body : Option RdapResponse
deriving DecidableEq, Repr

/-- The library's `DomainCheckResult`. -/
structure DomainCheckResult where
  domain : String
  available : Bool
  status : DomainStatus
  registrar : Option String
  registrationDate : Option String
  expirationDate : Option String
  error : Option String
deriving DecidableEq, Repr

/-- The `RDAP_ENDPOINTS` table. -/
def rdapEndpoints : List (String × String) :=
  [("com", "https://rdap.verisign.com/com/v1/domain/"),
   ("net", "https://rdap.verisign.com/net/v1/domain/"),
   ("org", "https://rdap.publicinterestregistry.net/rdap/org/domain/"),
   ("edu", "https://rdap.educause.edu/rdap/domain/"),
   ("gov", "https://rdap.dotgov.gov/rdap/domain/"),
   ("info", "https://rdap.afilias.info/rdap/domain/"),
   ("biz", "https://rdap.neulevel.biz/rdap/domain/"),
   ("mobi", "https://rdap.dotmobi.mobi/rdap/domain/"),
   ("asia", "https://rdap.iana.org/rdap/domain/"),
   ("coop", "https://rdap.iana.org/rdap/domain/"),
   ("name", "https://rdap.iana.org/rdap/domain/"),
   ("museum", "https://rdap.iana.org/rdap/domain/"),
   ("pro", "https://rdap.iana.org/rdap/domain/"),
   ("tel", "https://rdap.iana.org/rdap/domain/"),
   ("travel", "https://rdap.iana.org/rdap/domain/"),
   ("xxx", "https://rdap.iana.org/rdap/domain/"),
   ("my", "https://rdap.mynic.my/rdap/domain/"),
   ("jp", "https://rdap.nic.ad.jp/rdap/domain/"),
   ("in", "https://rdap.registry.in/rdap/domain/")]

/-- `getTLD`: lower-case, split at dots, take the last part. -/
def getTLD (domain : String) : String :=
  ⟨(splitDots (domain.data.map jsLowerChar)).getLastD []⟩

/-- `getRDAPEndpoint`: table lookup with fallback to the `.com` endpoint. -/
def getRDAPEndpoint (domain : String) : String :=
  (rdapEndpoints.lookup (getTLD domain)).getD "https://rdap.verisign.com/com/v1/domain/"

/-- The URL the RDAP library fetches for a (already arbitrary) input domain:
endpoint for the cleaned domain, concatenated with the cleaned domain. -/
def rdapUrl (domain : String) : String :=
  getRDAPEndpoint (jsClean domain) ++ jsClean domain

/-- The RDAP library's `checkDomain`: clean the input, fetch the RDAP URL with
a timeout (the fetch and its outcome are the oracle `fetch`), and translate
the response by status code: 404 → Available, 200 → Taken (parsing registrar
and event dates), 429/403/≥500/other → Error; thrown fetch errors are
classified by `name`/`message`.  The enclosing outer `catch` of the source is
unreachable here because every branch of the `try` body is total. -/
def rdapCheckDomain (fetch : String → Except JsError RdapHttpResp)
    (domain : String) : DomainCheckResult :=
  let cleanDomain := jsClean domain
  match fetch (rdapUrl domain) with
  | .ok resp =>
    if resp.status = 404 then
      { domain := cleanDomain, available := true, status := .Available,
        registrar := none, registrationDate := none, expirationDate := none,
        error := none }
    else if resp.status = 200 then
      let data := resp.body.getD { registrar := none, events := none }
      { domain := cleanDomain, available := false, status := .Taken,
        registrar := data.registrar,
        registrationDate :=
          (data.events.getD []).find? (fun e => e.eventAction = "registration")
            |>.map (fun e => e.eventDate),
        expirationDate :=
          (data.events.getD []).find? (fun e => e.eventAction = "expiration")
            |>.map (fun e => e.eventDate),
        error := none }
    else if resp.status = 429 then
      { domain := cleanDomain, available := false, status := .Error,
        registrar := none, registrationDate := none, expirationDate := none,
        error := some "Rate limited by RDAP server. Please try again later." }
    else if resp.status = 403 then
      { domain := cleanDomain, available := false, status := .Error,
        registrar := none, registrationDate := none, expirationDate := none,
        error := some "Access denied by RDAP server." }
    else if 500 ≤ resp.status then
      { domain := cleanDomain, available := false, status := .Error,
        registrar := none, registrationDate := none, expirationDate := none,
        error := some s!"RDAP server error ({resp.status}). Please try again later." }
    else
      { domain := cleanDomain, available := false, status := .Error,
        registrar := none, registrationDate := none, expirationDate := none,
        error := some s!"Unexpected response status: {resp.status}" }
  | .error fetchError =>
    if fetchError.name = "AbortError" then
      { domain := cleanDomain, available := false, status := .Error,
        registrar := none, registrationDate := none, expirationDate := none,
        error := some "Request timeout. RDAP server not responding." }
    else if jsIncludes fetchError.message "fetch" then
      { domain := cleanDomain, available := false, status := .Error,
        registrar := none, registrationDate := none, expirationDate := none,
        error := some "Network error. Please check your internet connection." }
    else
      { domain := cleanDomain, available := false, status := .Error,
        registrar := none, registrationDate := none, expirationDate := none,
        error := some "Failed to check domain availability." }

/-! ### Domain availability service — shared state and loop

Both variants of `domain-service.ts` keep the same module-level state: the
"domain-checker" sliding-window limiter (60 requests / 60000 ms), a
`requestCount`, and the single `lastError` slot. -/

/-- The hard-coded limiter configuration of both service variants. -/
def serviceCfg : RateLimitConfig := { maxRequests := 60, windowMs := 60000 }

/-- The module-level mutable state of a service variant. -/
structure ServiceState where
  limiterTs : List Int
  requestCount : Nat
  lastError : Option DomainCheckError
deriving DecidableEq, Repr

/-- Outcome of one service-level `checkDomain` call: the resolved result, the
updated state, the next `Date.now()` index, and (instrumentation) the registry
URLs fetched during the call. -/
structure StepOut where
  res : DomainResult
  state : ServiceState
  clk : Nat
  calls : List String
deriving DecidableEq, Repr

/-- Outcome of an inner `checkWith…` call, which may throw (`Except.error`). -/
structure TryOut where
  res : Except JsError DomainResult
  state : ServiceState
  clk : Nat
  calls : List String
deriving DecidableEq, Repr

/-- `recordRequest()`: call the limiter's `isAllowed()` and, when it allows,
increment `requestCount`. -/
def recordRequest (st : ServiceState) (now : Int) : ServiceState :=
  let r := slidingIsAllowed serviceCfg st.limiterTs now
  { st with limiterTs := r.2,
            requestCount := if r.1.allowed then st.requestCount + 1
                            else st.requestCount }

/-- `isRateLimitReached()`: negation of the limiter's `getStatus().allowed`. -/
def isRateLimitReached (st : ServiceState) (now : Int) : Bool :=
  !(slidingGetStatus serviceCfg st.limiterTs now).allowed

/-- Ghost-instrumented outcome of the `checkDomains` batch loop. -/
structure LoopOut where
  results : List DomainResult
  state : ServiceState
  clk : Nat
  calls : List String
  processed : Nat
  aborted : Bool
deriving DecidableEq, Repr

/-- The `for` loop of `checkDomains` (identical in both variants), generic in
the single-domain checker `checkOne`: before each domain, spend one
`Date.now()` on `isRateLimitReached()`; on denial mark this and every
remaining domain `{url, status: Error}` and break; otherwise delegate to
`checkOne` and continue.  The `try/catch` around `checkOne` in the source is
dead (the service-level `checkDomain` never throws), and
`waitForNextRequest` only sleeps. -/
def checkLoop (clock : Nat → Int)
    (checkOne : ServiceState → Nat → String → StepOut) :
    List String → ServiceState → Nat → LoopOut
  | [], st, k => { results := [], state := st, clk := k, calls := [],
                   processed := 0, aborted := false }
  | d :: rest, st, k =>
    if isRateLimitReached st (clock k) then
      { results := (d :: rest).map fun u => { url := u, status := .Error },
        state := st, clk := k + 1, calls := [], processed := 0, aborted := true }
    else
      let s := checkOne st (k + 1) d
      let o := checkLoop clock checkOne rest s.state s.clk
      { results := s.res :: o.results, state := o.state, clk := o.clk,
        calls := s.calls ++ o.calls, processed := o.processed + 1,
        aborted := o.aborted }

/-- `checkDomains` (identical in both variants up to the checker): empty input
returns `[]` immediately; otherwise the batch is truncated to
`MAX_DOMAINS_PER_BATCH = 10` (the over-length case only logs a warning) and
the loop runs on the truncation. -/
def checkDomainsG (clock : Nat → Int)
    (checkOne : ServiceState → Nat → String → StepOut)
    (domains : List String) (st : ServiceState) (k : Nat) : LoopOut :=
  match domains with
  | [] => { results := [], state := st, clk := k, calls := [],
            processed := 0, aborted := false }
  | _ :: _ => checkLoop clock checkOne (domains.take 10) st k

/-! ### RDAP-backed service variant -/

namespace RdapService

/-- External world of the RDAP variant: the `Date.now()` stream and the
`fetch`/JSON oracle of the RDAP library. -/
structure Env where
  clock : Nat → Int
  fetch : String → Except JsError RdapHttpResp

/-- `convertRdapResult`: project the library result onto `DomainResult`. -/
def convertRdapResult (r : DomainCheckResult) : DomainResult :=
  { url := r.domain, status := r.status }

/-- `checkWithRDAP`: validate the (already cleaned) domain, peek at the rate
limiter, query the RDAP library, then `recordRequest()`.  Validation and
rate-limit failures record `lastError` and throw; the library itself never
throws, so the surrounding `try/catch` of the source is unreachable. -/
def checkWithRDAP (env : Env) (st : ServiceState) (k : Nat) (domain : String) :
    TryOut :=
  if validateDomain domain = false then
    let le : DomainCheckError := { type := .api_error, message := "Invalid domain format." }
    { res := .error { name := "Error", message := le.message },
      state := { st with lastError := some le }, clk := k, calls := [] }
  else
    let rl := slidingGetStatus serviceCfg st.limiterTs (env.clock k)
    if rl.allowed = false then
      let le : DomainCheckError := { type := .rate_limit, message := formatRateLimitError rl }
      { res := .error { name := "Error", message := le.message },
        state := { st with lastError := some le }, clk := k + 1, calls := [] }
    else
      let rr := rdapCheckDomain env.fetch domain
      let st' := recordRequest st (env.clock (k + 1))
      { res := .ok (convertRdapResult rr), state := st', clk := k + 2,
        calls := [rdapUrl domain] }

/-- The service-level `checkDomain` of the RDAP variant: normalize the input,
delegate, and convert any thrown error into `{url: cleanDomain, status: Error}`. -/
def checkOne (env : Env) (st : ServiceState) (k : Nat) (domain : String) :
    StepOut :=
  let cleanDomain := jsClean domain
  let t := checkWithRDAP env st k cleanDomain
  match t.res with
  | .ok r => { res := r, state := t.state, clk := t.clk, calls := t.calls }
  | .error _ =>
    { res := { url := cleanDomain, status := .Error }, state := t.state,
      clk := t.clk, calls := t.calls }

/-- The RDAP variant's `checkDomains`. -/
def checkDomains (env : Env) (domains : List String) (st : ServiceState)
    (k : Nat) : LoopOut :=
  checkDomainsG env.clock (checkOne env) domains st k

end RdapService

/-! ### WhoisXML-backed service variant -/

namespace WhoisService

/-- `WhoisXMLAPIErrorResponse` (`messages?: string; code?: number`). -/
structure WhoisErrResp where
  messages : Option String
  code : Option Int
deriving DecidableEq, Repr

/-- The success payload: `DomainInfo.domainAvailability`. -/
structure WhoisResp where
  domainAvailability : String
deriving DecidableEq, Repr

/-- An HTTP response from the WhoisXML API: status code, the error-shaped
parse (`response.json().catch(() => ({}))`, so parse failure yields the empty
object), and the success-shaped parse (`response.json()` with no catch, so
parse failure throws). -/
structure WhoisHttpResp where
  status : Int
  errorData : WhoisErrResp
  data : Except JsError WhoisResp
deriving DecidableEq, Repr

/-- External world of the WhoisXML variant: clock, configured API key
(`process.env.WHOISXML_API_KEY`, absent or empty ⇒ `none`, via `getApiKey`),
and the fetch oracle. -/
structure Env where
  clock : Nat → Int
  apiKey : Option String
  fetch : String → Except JsError WhoisHttpResp

def apiBaseUrl : String := "https://domain-availability.whoisxmlapi.com/api/v1"

/-- `response.ok`: status in the 200–299 range. -/
def respOk (status : Int) : Bool := decide (200 ≤ status) && decide (status ≤ 299)

/-- The `catch` block of `checkWithWhoisXML`, applied to the state before the
rethrow: rate-limit-looking messages pass through; `TypeError`/fetch messages
record a network error; otherwise an `api_error` is recorded only when no
error is recorded yet. -/
def whoisCatch (st : ServiceState) (e : JsError) : ServiceState :=
  if jsIncludes e.message "limit" || jsIncludes e.message "rate" then st
  else if e.name = "TypeError" || jsIncludes e.message "fetch" then
    let le : DomainCheckError :=
      { type := .network_error,
        message := "Network error. Please check your internet connection and try again." }
    { st with lastError := some le }
  else if st.lastError = none then
    let le : DomainCheckError :=
      { type := .api_error,
        message := jsOrStr (some e.message) "Domain check failed. Please try again." }
    { st with lastError := some le }
  else st

/-- `checkWithWhoisXML`: validate, peek at the limiter, require the API key,
fetch (URL built from the key and domain; percent-encoding by
`URLSearchParams` is not modelled), `recordRequest()`, then map the response;
every failure path throws after updating `lastError` through the paths and
the `catch` block exactly as the source does. -/
def checkWithWhoisXML (env : Env) (st : ServiceState) (k : Nat)
    (domain : String) : TryOut :=
  if validateDomain domain = false then
    let le : DomainCheckError := { type := .api_error, message := "Invalid domain format." }
    { res := .error { name := "Error", message := le.message },
      state := { st with lastError := some le }, clk := k, calls := [] }
  else
    let rl := slidingGetStatus serviceCfg st.limiterTs (env.clock k)
    if rl.allowed = false then
      let le : DomainCheckError := { type := .rate_limit, message := formatRateLimitError rl }
      { res := .error { name := "Error", message := le.message },
        state := { st with lastError := some le }, clk := k + 1, calls := [] }
    else
      match env.apiKey with
      | none =>
        let le : DomainCheckError :=
          { type := .api_error,
            message := "API key not configured. Please set WHOISXML_API_KEY in your .env file." }
        { res := .error { name := "Error", message := le.message },
          state := { st with lastError := some le }, clk := k + 1, calls := [] }
      | some key =>
        let url := apiBaseUrl ++ "?apiKey=" ++ key ++ "&domainName=" ++ domain
        match env.fetch url with
        | .error e =>
          { res := .error e, state := whoisCatch st e, clk := k + 1,
            calls := [url] }
        | .ok resp =>
          let st1 := recordRequest st (env.clock (k + 1))
          if respOk resp.status = false then
            if resp.status = 429 || jsIncludesOpt resp.errorData.messages "limit" then
              let le : DomainCheckError :=
                { type := .rate_limit,
                  message := "API rate limit reached. Please try again later." }
              let e : JsError := { name := "Error", message := le.message }
              { res := .error e, state := whoisCatch { st1 with lastError := some le } e,
                clk := k + 2, calls := [url] }
            else if resp.status = 401 || resp.status = 403 then
              let le : DomainCheckError :=
                { type := .api_error,
                  message := "Invalid WhoisXML API key. Please check your credentials." }
              let e : JsError := { name := "Error", message := le.message }
              { res := .error e, state := whoisCatch { st1 with lastError := some le } e,
                clk := k + 2, calls := [url] }
            else
              let le : DomainCheckError :=
                { type := .api_error,
                  message := "WhoisXML API error: " ++ toString resp.status ++ " - " ++
                    jsOrStr resp.errorData.messages "Unknown error" }
              let e : JsError := { name := "Error", message := le.message }
              { res := .error e, state := whoisCatch { st1 with lastError := some le } e,
                clk := k + 2, calls := [url] }
          else
            match resp.data with
            | .error e =>
              { res := .error e, state := whoisCatch st1 e, clk := k + 2,
                calls := [url] }
            | .ok data =>
              let isAvailable := data.domainAvailability = "AVAILABLE"
              let r : DomainResult :=
                { url := domain,
                  status := if isAvailable then .Available else .Taken }
              { res := .ok r, state := st1, clk := k + 2, calls := [url] }

/-- The service-level `checkDomain` of the WhoisXML variant. -/
def checkOne (env : Env) (st : ServiceState) (k : Nat) (domain : String) :
    StepOut :=
  let cleanDomain := jsClean domain
  let t := checkWithWhoisXML env st k cleanDomain
  match t.res with
  | .ok r => { res := r, state := t.state, clk := t.clk, calls := t.calls }
  | .error _ =>
    { res := { url := cleanDomain, status := .Error }, state := t.state,
      clk := t.clk, calls := t.calls }

/-- The WhoisXML variant's `checkDomains`. -/
def checkDomains (env : Env) (domains : List String) (st : ServiceState)
    (k : Nat) : LoopOut :=
  checkDomainsG env.clock (checkOne env) domains st k

end WhoisService

/-! ### Helper lemmas: the JS string model -/

theorem jsLowerChar_toNat_of_upper {c : Char}
    (h : 65 ≤ c.toNat ∧ c.toNat ≤ 90) :
    (jsLowerChar c).toNat = c.toNat + 32 := by
  have hlt : 97 ≤ c.toNat + 32 ∧ c.toNat + 32 ≤ 122 := by omega
  rw [jsLowerChar, if_pos h]
  obtain ⟨h1, h2⟩ := hlt
  set m := c.toNat + 32 with hm
  clear_value m
  interval_cases m <;> decide

theorem jsLowerChar_of_not_upper {c : Char}
    (h : ¬(65 ≤ c.toNat ∧ c.toNat ≤ 90)) : jsLowerChar c = c := by
  rw [jsLowerChar, if_neg h]

theorem jsLowerChar_idem (c : Char) :
    jsLowerChar (jsLowerChar c) = jsLowerChar c := by
  by_cases h : 65 ≤ c.toNat ∧ c.toNat ≤ 90
  · have ht := jsLowerChar_toNat_of_upper h
    apply jsLowerChar_of_not_upper
    omega
  · rw [jsLowerChar_of_not_upper h, jsLowerChar_of_not_upper h]

theorem jsIsWs_lowerChar (c : Char) : jsIsWs (jsLowerChar c) = jsIsWs c := by
  by_cases h : 65 ≤ c.toNat ∧ c.toNat ≤ 90
  · have ht := jsLowerChar_toNat_of_upper h
    have h1 : jsIsWs (jsLowerChar c) = false := by
      rw [jsIsWs]
      simp only [Bool.or_eq_false_iff, decide_eq_false_iff_not]
      omega
    have h2 : jsIsWs c = false := by
      rw [jsIsWs]
      simp only [Bool.or_eq_false_iff, decide_eq_false_iff_not]
      omega
    rw [h1, h2]
  · rw [jsLowerChar_of_not_upper h]

theorem dropWhile_head_not {p : Char → Bool} :
    ∀ {l : List Char} {a : Char} {t : List Char},
      l.dropWhile p = a :: t → p a = false := by
  intro l
  induction l with
  | nil => intro a t h; simp [List.dropWhile] at h
  | cons x xs ih =>
    intro a t h
    by_cases hx : p x
    · rw [List.dropWhile_cons_of_pos hx] at h
      exact ih h
    · rw [List.dropWhile_cons_of_neg hx] at h
      cases h
      simpa using hx

theorem dropWhile_idem (p : Char → Bool) (l : List Char) :
    (l.dropWhile p).dropWhile p = l.dropWhile p := by
  cases h : l.dropWhile p with
  | nil => simp
  | cons a t =>
    have ha := dropWhile_head_not h
    rw [List.dropWhile_cons_of_neg (by simp [ha])]

theorem dropWhile_append_exists (p : Char → Bool) (l : List Char) :
    ∃ s, s ++ l.dropWhile p = l := by
  induction l with
  | nil => exact ⟨[], rfl⟩
  | cons x xs ih =>
    by_cases hx : p x
    · obtain ⟨s, hs⟩ := ih
      exact ⟨x :: s, by rw [List.dropWhile_cons_of_pos hx]; simpa using hs⟩
    · exact ⟨[], by rw [List.dropWhile_cons_of_neg hx]; rfl⟩

theorem jsTrimList_head_not :
    ∀ {l a t}, jsTrimList l = a :: t → jsIsWs a = false := by
  intro l a t h
  obtain ⟨s, hs⟩ :=
    dropWhile_append_exists jsIsWs ((l.dropWhile jsIsWs).reverse)
  have hu : jsTrimList l ++ s.reverse = l.dropWhile jsIsWs := by
    have := congrArg List.reverse hs
    rw [List.reverse_append, List.reverse_reverse] at this
    exact this
  rw [h] at hu
  exact dropWhile_head_not hu.symm

theorem dropWhile_jsTrimList (l : List Char) :
    (jsTrimList l).dropWhile jsIsWs = jsTrimList l := by
  cases h : jsTrimList l with
  | nil => simp
  | cons a t =>
    have ha := jsTrimList_head_not h
    rw [List.dropWhile_cons_of_neg (by simp [ha])]

theorem jsTrimList_idem (l : List Char) :
    jsTrimList (jsTrimList l) = jsTrimList l := by
  conv_lhs => rw [jsTrimList, dropWhile_jsTrimList l]
  rw [jsTrimList, List.reverse_reverse, dropWhile_idem]

theorem dropWhile_map_lower (l : List Char) :
    (l.map jsLowerChar).dropWhile jsIsWs =
      (l.dropWhile jsIsWs).map jsLowerChar := by
  induction l with
  | nil => rfl
  | cons x xs ih =>
    by_cases hx : jsIsWs x
    · rw [List.map_cons, List.dropWhile_cons_of_pos (by rw [jsIsWs_lowerChar]; exact hx),
        List.dropWhile_cons_of_pos hx]
      exact ih
    · rw [List.map_cons, List.dropWhile_cons_of_neg (by rw [jsIsWs_lowerChar]; exact hx),
        List.dropWhile_cons_of_neg hx, List.map_cons]

theorem map_lower_jsTrimList (l : List Char) :
    (jsTrimList l).map jsLowerChar = jsTrimList (l.map jsLowerChar) := by
  rw [jsTrimList, jsTrimList, List.map_reverse, ← dropWhile_map_lower,
    List.map_reverse, ← dropWhile_map_lower]

theorem map_lower_idem (l : List Char) :
    (l.map jsLowerChar).map jsLowerChar = l.map jsLowerChar := by
  induction l with
  | nil => rfl
  | cons x xs ih => simp only [List.map_cons, jsLowerChar_idem, ih]

/-- `toLowerCase().trim()` is idempotent, so the double normalisation on the
success path of the service (`checkDomain` cleans, then the RDAP library
cleans again) is the single normalisation. -/
theorem jsClean_idem (s : String) : jsClean (jsClean s) = jsClean s := by
  show (⟨jsTrimList ((jsTrimList (s.data.map jsLowerChar)).map jsLowerChar)⟩ : String) = _
  rw [map_lower_jsTrimList, map_lower_idem, jsTrimList_idem]
  rfl

/-! ### Helper lemmas: arithmetic of the limiters -/

theorem jsCeilDiv_pos {a : Int} (h : 0 < a) : 0 < jsCeilDiv a 1000 := by
  rw [jsCeilDiv]
  omega

theorem jsMin_le_left (a b : ℚ) : jsMin a b ≤ a := by
  rw [jsMin]
  split_ifs with h
  · exact le_refl a
  · exact le_of_not_le h

theorem jsMin_add_of_nonneg {a c : ℚ} (hc : 0 ≤ c) : jsMin a (a + c) = a := by
  rw [jsMin, if_pos (by linarith)]

theorem jsMin_telescope {m b c : ℚ} (hc : 0 ≤ c) :
    jsMin m (jsMin m b + c) = jsMin m (b + c) := by
  simp only [jsMin]
  split_ifs <;> linarith

/-- Consecutive refills at monotone instants collapse to the last refill
(for a configuration with nonnegative capacity and window). -/
theorem refillTokens_refillTokens (cfg : RateLimitConfig) (st : TBState)
    {t₁ t₂ : Int} (h12 : t₁ ≤ t₂) (hM : 0 ≤ cfg.maxRequests)
    (hW : 0 ≤ cfg.windowMs) :
    refillTokens cfg (refillTokens cfg st t₁) t₂ = refillTokens cfg st t₂ := by
  have hr : (0 : ℚ) ≤ (cfg.maxRequests : ℚ) / (cfg.windowMs : ℚ) := by
    apply div_nonneg
    · exact_mod_cast hM
    · exact_mod_cast hW
  have hc : (0 : ℚ) ≤ ((t₂ - t₁ : Int) : ℚ) * ((cfg.maxRequests : ℚ) / (cfg.windowMs : ℚ)) := by
    apply mul_nonneg _ hr
    have : (0 : Int) ≤ t₂ - t₁ := by omega
    exact_mod_cast this
  simp only [refillTokens, TBState.mk.injEq, and_true]
  rw [jsMin_telescope hc]
  congr 1
  push_cast
  ring

/-! ### Helper lemmas: the batch loop -/

theorem checkLoop_length (clock : Nat → Int)
    (checkOne : ServiceState → Nat → String → StepOut) :
    ∀ (ds : List String) (st : ServiceState) (k : Nat),
      (checkLoop clock checkOne ds st k).results.length = ds.length := by
  intro ds
  induction ds with
  | nil => intro st k; rfl
  | cons d rest ih =>
    intro st k
    rw [checkLoop]
    split
    · simp
    · simp [ih]

theorem checkLoop_calls_le (clock : Nat → Int)
    (checkOne : ServiceState → Nat → String → StepOut)
    (hc : ∀ st k d, (checkOne st k d).calls.length ≤ 1) :
    ∀ (ds : List String) (st : ServiceState) (k : Nat),
      (checkLoop clock checkOne ds st k).calls.length ≤ ds.length := by
  intro ds
  induction ds with
  | nil => intro st k; simp [checkLoop]
  | cons d rest ih =>
    intro st k
    rw [checkLoop]
    split
    · simp
    · simp only [List.length_append, List.length_cons]
      have h1 := hc st (k + 1) d
      have h2 := ih (checkOne st (k + 1) d).state (checkOne st (k + 1) d).clk
      omega

theorem checkLoop_processed_le (clock : Nat → Int)
    (checkOne : ServiceState → Nat → String → StepOut) :
    ∀ (ds : List String) (st : ServiceState) (k : Nat),
      (checkLoop clock checkOne ds st k).processed ≤ ds.length := by
  intro ds
  induction ds with
  | nil => intro st k; simp [checkLoop]
  | cons d rest ih =>
    intro st k
    rw [checkLoop]
    split
    · simp
    · simp only [List.length_cons]
      have := ih (checkOne st (k + 1) d).state (checkOne st (k + 1) d).clk
      omega

/-- The urls of the loop results: the first `processed` inputs appear
normalised (when the checker normalises), the rest appear verbatim. -/
theorem checkLoop_urls (clock : Nat → Int)
    (checkOne : ServiceState → Nat → String → StepOut)
    (hu : ∀ st k d, (checkOne st k d).res.url = jsClean d) :
    ∀ (ds : List String) (st : ServiceState) (k : Nat),
      (checkLoop clock checkOne ds st k).results.map DomainResult.url =
        (ds.take (checkLoop clock checkOne ds st k).processed).map jsClean ++
          ds.drop (checkLoop clock checkOne ds st k).processed := by
  intro ds
  induction ds with
  | nil => intro st k; rfl
  | cons d rest ih =>
    intro st k
    rw [checkLoop]
    split
    · simp only [List.map_map, List.take_zero, List.map_nil, List.nil_append,
        List.drop_zero]
      exact List.map_id (d :: rest)
    · simp only [List.map_cons, List.take_succ_cons, List.drop_succ_cons,
        List.cons_append]
      rw [hu st (k + 1) d]
      exact congrArg _ (ih (checkOne st (k + 1) d).state (checkOne st (k + 1) d).clk)

/-! ### Helper lemmas: branch equations of the service functions -/

theorem recordRequest_lastError (st : ServiceState) (now : Int) :
    (recordRequest st now).lastError = st.lastError := rfl

theorem recordRequest_requestCount_of_allowed (st : ServiceState) (now : Int)
    (h : (slidingIsAllowed serviceCfg st.limiterTs now).1.allowed = true) :
    (recordRequest st now).requestCount = st.requestCount + 1 := by
  rw [recordRequest]
  simp [h]

theorem rdapCheckDomain_domain (fetch : String → Except JsError RdapHttpResp)
    (domain : String) : (rdapCheckDomain fetch domain).domain = jsClean domain := by
  rw [rdapCheckDomain]
  cases fetch (rdapUrl domain) with
  | ok resp => simp only; split_ifs <;> rfl
  | error e => simp only; split_ifs <;> rfl

namespace RdapService

theorem checkWithRDAP_invalid (env : Env) (st : ServiceState) (k : Nat)
    (c : String) (hv : validateDomain c = false) :
    checkWithRDAP env st k c =
      { res := .error { name := "Error", message := "Invalid domain format." },
        state :=
          { st with
            lastError := some { type := .api_error, message := "Invalid domain format." } },
        clk := k, calls := [] } := by
  rw [checkWithRDAP, if_pos hv]

theorem checkWithRDAP_denied (env : Env) (st : ServiceState) (k : Nat)
    (c : String) (hv : validateDomain c = true)
    (hr : (slidingGetStatus serviceCfg st.limiterTs (env.clock k)).allowed = false) :
    checkWithRDAP env st k c =
      (let rl := slidingGetStatus serviceCfg st.limiterTs (env.clock k)
       { res := .error { name := "Error", message := formatRateLimitError rl },
         state :=
           { st with
             lastError := some { type := .rate_limit, message := formatRateLimitError rl } },
         clk := k + 1, calls := [] }) := by
  rw [checkWithRDAP, if_neg (by simp [hv]), if_pos hr]

theorem checkWithRDAP_granted (env : Env) (st : ServiceState) (k : Nat)
    (c : String) (hv : validateDomain c = true)
    (hr : (slidingGetStatus serviceCfg st.limiterTs (env.clock k)).allowed = true) :
    checkWithRDAP env st k c =
      { res := .ok (convertRdapResult (rdapCheckDomain env.fetch c)),
        state := recordRequest st (env.clock (k + 1)), clk := k + 2,
        calls := [rdapUrl c] } := by
  rw [checkWithRDAP, if_neg (by simp [hv]), if_neg (by simp [hr])]

theorem rdapCheckOne_of_error (env : Env) (st : ServiceState) (k : Nat) (d : String)
    (e : JsError) (h : (checkWithRDAP env st k (jsClean d)).res = .error e) :
    checkOne env st k d =
      { res := { url := jsClean d, status := .Error },
        state := (checkWithRDAP env st k (jsClean d)).state,
        clk := (checkWithRDAP env st k (jsClean d)).clk,
        calls := (checkWithRDAP env st k (jsClean d)).calls } := by
  rw [checkOne]
  simp only [h]

theorem rdapCheckOne_of_ok (env : Env) (st : ServiceState) (k : Nat) (d : String)
    (r : DomainResult) (h : (checkWithRDAP env st k (jsClean d)).res = .ok r) :
    checkOne env st k d =
      { res := r,
        state := (checkWithRDAP env st k (jsClean d)).state,
        clk := (checkWithRDAP env st k (jsClean d)).clk,
        calls := (checkWithRDAP env st k (jsClean d)).calls } := by
  rw [checkOne]
  simp only [h]

theorem checkWithRDAP_res_ok_url (env : Env) (st : ServiceState) (k : Nat)
    (c : String) (r : DomainResult)
    (h : (checkWithRDAP env st k c).res = .ok r) : r.url = jsClean c := by
  by_cases hv : validateDomain c = false
  · rw [checkWithRDAP_invalid env st k c hv] at h
    cases h
  · have hv' : validateDomain c = true := by
      cases hq : validateDomain c
      · exact absurd hq hv
      · rfl
    by_cases hr : (slidingGetStatus serviceCfg st.limiterTs (env.clock k)).allowed = false
    · rw [checkWithRDAP_denied env st k c hv' hr] at h
      cases h
    · have hr' : (slidingGetStatus serviceCfg st.limiterTs (env.clock k)).allowed = true := by
        cases hq : (slidingGetStatus serviceCfg st.limiterTs (env.clock k)).allowed
        · exact absurd hq hr
        · rfl
      rw [checkWithRDAP_granted env st k c hv' hr'] at h
      cases h
      show (convertRdapResult (rdapCheckDomain env.fetch c)).url = jsClean c
      rw [convertRdapResult]
      exact rdapCheckDomain_domain env.fetch c

theorem rdapCheckOne_url (env : Env) (st : ServiceState) (k : Nat) (d : String) :
    (checkOne env st k d).res.url = jsClean d := by
  cases h : (checkWithRDAP env st k (jsClean d)).res with
  | ok r =>
    rw [rdapCheckOne_of_ok env st k d r h]
    have := checkWithRDAP_res_ok_url env st k (jsClean d) r h
    rw [this, jsClean_idem]
  | error e =>
    rw [rdapCheckOne_of_error env st k d e h]

theorem checkWithRDAP_calls_le (env : Env) (st : ServiceState) (k : Nat)
    (c : String) : (checkWithRDAP env st k c).calls.length ≤ 1 := by
  simp only [checkWithRDAP]
  split_ifs <;> simp

theorem rdapCheckOne_calls_le (env : Env) (st : ServiceState) (k : Nat)
    (d : String) : (checkOne env st k d).calls.length ≤ 1 := by
  cases h : (checkWithRDAP env st k (jsClean d)).res with
  | ok r =>
    rw [rdapCheckOne_of_ok env st k d r h]
    exact checkWithRDAP_calls_le env st k (jsClean d)
  | error e =>
    rw [rdapCheckOne_of_error env st k d e h]
    exact checkWithRDAP_calls_le env st k (jsClean d)

end RdapService

namespace WhoisService

theorem whoisCatch_some {st : ServiceState} (e : JsError)
    (h : st.lastError ≠ none) : (whoisCatch st e).lastError ≠ none := by
  rw [whoisCatch]
  split_ifs <;> simp_all

theorem whoisCatch_none {st : ServiceState} {e : JsError}
    (h : (whoisCatch st e).lastError = none) :
    st.lastError = none ∧
      (jsIncludes e.message "limit" || jsIncludes e.message "rate") = true := by
  rw [whoisCatch] at h
  split_ifs at h with h1 h2 h3
  · exact ⟨h, h1⟩
  · exact absurd h h3

/-- Every throwing path of `checkWithWhoisXML` leaves a recorded
`DomainCheckError` behind, except the rethrow path for an error whose message
already mentions "limit" or "rate" when nothing was recorded before. -/
theorem checkWith_res_error_lastError (env : Env) (st : ServiceState) (k : Nat)
    (c : String) (e : JsError)
    (h : (checkWithWhoisXML env st k c).res = .error e) :
    (checkWithWhoisXML env st k c).state.lastError ≠ none ∨
      (st.lastError = none ∧
        (jsIncludes e.message "limit" || jsIncludes e.message "rate") = true) := by
  simp only [checkWithWhoisXML] at h ⊢
  split_ifs at h ⊢ with hv hr
  · left; simp
  · left; simp
  · cases hk : env.apiKey with
    | none => simp only [hk] at h ⊢; left; simp
    | some key =>
      simp only [hk] at h ⊢
      cases hf : env.fetch (apiBaseUrl ++ "?apiKey=" ++ key ++ "&domainName=" ++ c) with
      | error e2 =>
        simp only [hf] at h ⊢
        simp only [Except.error.injEq] at h
        subst h
        by_cases hn : (whoisCatch st e2).lastError = none
        · exact .inr (whoisCatch_none hn)
        · exact .inl hn
      | ok resp =>
        simp only [hf] at h ⊢
        split_ifs at h ⊢ with ho h429 h403
        · left
          apply whoisCatch_some
          simp
        · left
          apply whoisCatch_some
          simp
        · left
          apply whoisCatch_some
          simp
        · cases hd : resp.data with
          | error e3 =>
            simp only [hd] at h ⊢
            simp only [Except.error.injEq] at h
            subst h
            by_cases hn :
                (whoisCatch (recordRequest st (env.clock (k + 1))) e3).lastError = none
            · right
              have := whoisCatch_none hn
              rwa [recordRequest_lastError] at this
            · exact .inl hn
          | ok data =>
            simp only [hd] at h
            cases h

theorem checkWith_res_ok_url (env : Env) (st : ServiceState) (k : Nat)
    (c : String) (r : DomainResult)
    (h : (checkWithWhoisXML env st k c).res = .ok r) : r.url = c := by
  simp only [checkWithWhoisXML] at h
  split_ifs at h with hv hr
  cases hk : env.apiKey with
  | none => simp only [hk] at h; cases h
  | some key =>
    simp only [hk] at h
    cases hf : env.fetch (apiBaseUrl ++ "?apiKey=" ++ key ++ "&domainName=" ++ c) with
    | error e2 => simp only [hf] at h; cases h
    | ok resp =>
      simp only [hf] at h
      split_ifs at h with ho h429 h403
      cases hd : resp.data with
      | error e3 => simp only [hd] at h; cases h
      | ok data =>
        simp only [hd, Except.ok.injEq] at h
        subst h
        rfl

theorem checkWith_calls_le (env : Env) (st : ServiceState) (k : Nat)
    (c : String) : (checkWithWhoisXML env st k c).calls.length ≤ 1 := by
  simp only [checkWithWhoisXML]
  split_ifs with hv hr
  · simp
  · simp
  · cases hk : env.apiKey with
    | none => simp
    | some key =>
      simp only
      cases hf : env.fetch (apiBaseUrl ++ "?apiKey=" ++ key ++ "&domainName=" ++ c) with
      | error e2 => simp [hf]
      | ok resp =>
        simp only [hf]
        split_ifs with ho h429 h403
        · simp
        · simp
        · simp
        · cases hd : resp.data with
          | error e3 => simp [hd]
          | ok data => simp [hd]

theorem whoisCheckOne_of_error (env : Env) (st : ServiceState) (k : Nat) (d : String)
    (e : JsError) (h : (checkWithWhoisXML env st k (jsClean d)).res = .error e) :
    checkOne env st k d =
      { res := { url := jsClean d, status := .Error },
        state := (checkWithWhoisXML env st k (jsClean d)).state,
        clk := (checkWithWhoisXML env st k (jsClean d)).clk,
        calls := (checkWithWhoisXML env st k (jsClean d)).calls } := by
  rw [checkOne]
  simp only [h]

theorem whoisCheckOne_of_ok (env : Env) (st : ServiceState) (k : Nat) (d : String)
    (r : DomainResult) (h : (checkWithWhoisXML env st k (jsClean d)).res = .ok r) :
    checkOne env st k d =
      { res := r,
        state := (checkWithWhoisXML env st k (jsClean d)).state,
        clk := (checkWithWhoisXML env st k (jsClean d)).clk,
        calls := (checkWithWhoisXML env st k (jsClean d)).calls } := by
  rw [checkOne]
  simp only [h]

theorem whoisCheckOne_url (env : Env) (st : ServiceState) (k : Nat) (d : String) :
    (checkOne env st k d).res.url = jsClean d := by
  cases h : (checkWithWhoisXML env st k (jsClean d)).res with
  | ok r =>
    rw [whoisCheckOne_of_ok env st k d r h]
    exact checkWith_res_ok_url env st k (jsClean d) r h
  | error e =>
    rw [whoisCheckOne_of_error env st k d e h]

theorem whoisCheckOne_calls_le (env : Env) (st : ServiceState) (k : Nat)
    (d : String) : (checkOne env st k d).calls.length ≤ 1 := by
  cases h : (checkWithWhoisXML env st k (jsClean d)).res with
  | ok r =>
    rw [whoisCheckOne_of_ok env st k d r h]
    exact checkWith_calls_le env st k (jsClean d)
  | error e =>
    rw [whoisCheckOne_of_error env st k d e h]
    exact checkWith_calls_le env st k (jsClean d)

end WhoisService

/-! ### Concrete fixtures used by witnesses and counterexamples -/

def clock0 : Nat → Int := fun _ => 0

def stEmpty : ServiceState := { limiterTs := [], requestCount := 0, lastError := none }

/-- A service state whose limiter window already holds 60 timestamps, so the
"domain-checker" limiter (60 requests / minute) denies at time 0. -/
def stExhausted : ServiceState :=
  { limiterTs := List.replicate 60 0, requestCount := 60, lastError := none }

def fetch404 : String → Except JsError RdapHttpResp :=
  fun _ => .ok { status := 404, body := none }

def rdapEnv404 : RdapService.Env := { clock := clock0, fetch := fetch404 }

def rdapEnv429 : RdapService.Env :=
  { clock := clock0, fetch := fun _ => .ok { status := 429, body := none } }

def whoisEnvNoKey : WhoisService.Env :=
  { clock := clock0, apiKey := none,
    fetch := fun _ => .ok { status := 200, errorData := { messages := none, code := none },
                            data := .ok { domainAvailability := "AVAILABLE" } } }

/-- An arbitrary single-domain checker, used to witness the generic batch-loop
facts at a concrete instance. -/
def dummyCheckOne : ServiceState → Nat → String → StepOut :=
  fun st k d => { res := { url := d, status := .Available }, state := st, clk := k, calls := [] }

def ds15 : List String := List.replicate 15 "foo.com"

/-! ### The claims -/

/-- C1: in `checkDomains`, when the rate limiter reports denial before the
current domain of the (possibly truncated) batch, iteration stops: that domain
and every remaining one resolve to `{url, status: Error}` (with the raw input
as `url`), no registry lookup happens for any of them (`calls = []`), and the
service state is left untouched.  The second conjunct ties the loop to
`checkDomains`: a nonempty batch is the loop run on the 10-truncation, so the
first conjunct applies at any position `i` of the batch with `d :: rest` the
suffix from `i`.  This holds for both service variants, which share the loop
verbatim (`checkDomainsG`). -/
theorem C1_rate_limit_fail_fast :
    (∀ (clock : Nat → Int) (checkOne : ServiceState → Nat → String → StepOut)
       (d : String) (rest : List String) (st : ServiceState) (k : Nat),
        (slidingGetStatus serviceCfg st.limiterTs (clock k)).allowed = false →
        checkLoop clock checkOne (d :: rest) st k =
          { results := (d :: rest).map fun u => { url := u, status := .Error },
            state := st, clk := k + 1, calls := [], processed := 0,
            aborted := true }) ∧
    (∀ (clock : Nat → Int) (checkOne : ServiceState → Nat → String → StepOut)
       (ds : List String) (st : ServiceState) (k : Nat), ds ≠ [] →
        checkDomainsG clock checkOne ds st k =
          checkLoop clock checkOne (ds.take 10) st k) := by
  constructor
  · intro clock checkOne d rest st k h
    rw [checkLoop]
    have hd : isRateLimitReached st (clock k) = true := by
      rw [isRateLimitReached, h]
      rfl
    rw [if_pos hd]
  · intro clock checkOne ds st k h
    cases ds with
    | nil => exact absurd rfl h
    | cons d rest => rfl

/-- Witness for C1 at a concrete denied state: the limiter holds 60 timestamps
at time 0, so a 2-domain batch aborts immediately. -/
theorem C1_rate_limit_fail_fast_witness :
    (slidingGetStatus serviceCfg stExhausted.limiterTs (clock0 0)).allowed = false ∧
    checkLoop clock0 dummyCheckOne ["a.com", "b.com"] stExhausted 0 =
      { results := [{ url := "a.com", status := .Error },
                    { url := "b.com", status := .Error }],
        state := stExhausted, clk := 1, calls := [], processed := 0,
        aborted := true } ∧
    checkDomainsG clock0 dummyCheckOne ["a.com"] stExhausted 0 =
      checkLoop clock0 dummyCheckOne ["a.com"] stExhausted 0 := by
  refine ⟨by decide, ?_, ?_⟩
  · have h := C1_rate_limit_fail_fast.1 clock0 dummyCheckOne "a.com" ["b.com"]
      stExhausted 0 (by decide)
    simpa using h
  · exact C1_rate_limit_fail_fast.2 clock0 dummyCheckOne ["a.com"] stExhausted 0
      (by decide)

/-- C2: the RDAP registry client maps the HTTP status of the response to the
result exactly as claimed: 404 ↦ Available (with the cleaned input as the
domain of the result — for an already-clean domain such as `"foo.com"` this is
the input itself), 200 ↦ Taken, 429 ↦ Error, 403 ↦ Error, any status ≥ 500 ↦
Error, and every other status ↦ Error. -/
theorem C2_rdap_status_mapping
    (fetch : String → Except JsError RdapHttpResp) (domain : String)
    (resp : RdapHttpResp) (hf : fetch (rdapUrl domain) = .ok resp) :
    (resp.status = 404 → rdapCheckDomain fetch domain =
      { domain := jsClean domain, available := true, status := .Available,
        registrar := none, registrationDate := none, expirationDate := none,
        error := none }) ∧
    (resp.status = 200 → (rdapCheckDomain fetch domain).status = .Taken) ∧
    (resp.status = 429 → (rdapCheckDomain fetch domain).status = .Error) ∧
    (resp.status = 403 → (rdapCheckDomain fetch domain).status = .Error) ∧
    (500 ≤ resp.status → (rdapCheckDomain fetch domain).status = .Error) ∧
    (resp.status ≠ 404 → resp.status ≠ 200 → resp.status ≠ 429 →
      resp.status ≠ 403 → (rdapCheckDomain fetch domain).status = .Error) := by
  refine ⟨?_, ?_, ?_, ?_, ?_, ?_⟩
  · intro h1
    simp [rdapCheckDomain, hf, h1]
  · intro h1
    simp [rdapCheckDomain, hf, h1]
  · intro h1
    simp [rdapCheckDomain, hf, h1]
  · intro h1
    simp [rdapCheckDomain, hf, h1]
  · intro h5
    have n404 : resp.status ≠ 404 := by omega
    have n200 : resp.status ≠ 200 := by omega
    have n429 : resp.status ≠ 429 := by omega
    have n403 : resp.status ≠ 403 := by omega
    simp [rdapCheckDomain, hf, n404, n200, n429, n403, h5]
  · intro h1 h2 h3 h4
    by_cases h5 : 500 ≤ resp.status
    · simp [rdapCheckDomain, hf, h1, h2, h3, h4, h5]
    · simp [rdapCheckDomain, hf, h1, h2, h3, h4, h5]

/-- Witness for C2: a 404 response for `"foo.com"` yields
`{url: "foo.com", status: Available}` at the library level. -/
theorem C2_rdap_status_mapping_witness :
    rdapCheckDomain fetch404 "foo.com" =
      { domain := "foo.com", available := true, status := .Available,
        registrar := none, registrationDate := none, expirationDate := none,
        error := none } := by
  have h := (C2_rdap_status_mapping fetch404 "foo.com"
    { status := 404, body := none } rfl).1 rfl
  rw [show jsClean "foo.com" = "foo.com" by decide] at h
  exact h

/-- C4: from a fresh sliding-window limiter `{maxRequests: 2, windowMs: 1000}`,
three `isAllowed()` calls at instants `t0 ≤ t1 ≤ t2` inside one window
(`t2 < t0 + 1000`) produce: allowed, allowed, then denied with
`resetTime = t0 + 1000` (the oldest surviving timestamp plus the window) and
`retryAfter = ⌈(resetTime − now)/1000⌉ > 0`.  Each conjunct equates a call on
the state produced by the previous one. -/
theorem C4_sliding_window_scenario (t0 t1 t2 : Int) (h01 : t0 ≤ t1)
    (h12 : t1 ≤ t2) (hw : t2 < t0 + 1000) :
    slidingIsAllowed { maxRequests := 2, windowMs := 1000 } [] t0 =
      ({ allowed := true, remaining := 1, resetTime := t0 + 1000,
         retryAfter := none }, [t0]) ∧
    slidingIsAllowed { maxRequests := 2, windowMs := 1000 } [t0] t1 =
      ({ allowed := true, remaining := 0, resetTime := t1 + 1000,
         retryAfter := none }, [t0, t1]) ∧
    slidingIsAllowed { maxRequests := 2, windowMs := 1000 } [t0, t1] t2 =
      ({ allowed := false, remaining := 0, resetTime := t0 + 1000,
         retryAfter := some (jsCeilDiv (t0 + 1000 - t2) 1000) }, [t0, t1]) ∧
    0 < jsCeilDiv (t0 + 1000 - t2) 1000 := by
  have k1 : t1 - 1000 < t0 := by omega
  have k2 : t2 - 1000 < t0 := by omega
  have k3 : t2 - 1000 < t1 := by omega
  refine ⟨?_, ?_, ?_, jsCeilDiv_pos (by omega)⟩
  · norm_num [slidingIsAllowed]
  · norm_num [slidingIsAllowed, k1]
  · norm_num [slidingIsAllowed, k2, k3]

/-- Witness for C4 at `t0 = 0, t1 = 1, t2 = 2`. -/
theorem C4_sliding_window_scenario_witness :
    slidingIsAllowed { maxRequests := 2, windowMs := 1000 } [] 0 =
      ({ allowed := true, remaining := 1, resetTime := 0 + 1000,
         retryAfter := none }, [0]) ∧
    slidingIsAllowed { maxRequests := 2, windowMs := 1000 } [0] 1 =
      ({ allowed := true, remaining := 0, resetTime := 1 + 1000,
         retryAfter := none }, [0, 1]) ∧
    slidingIsAllowed { maxRequests := 2, windowMs := 1000 } [0, 1] 2 =
      ({ allowed := false, remaining := 0, resetTime := 0 + 1000,
         retryAfter := some (jsCeilDiv (0 + 1000 - 2) 1000) }, [0, 1]) ∧
    0 < jsCeilDiv (0 + 1000 - 2) 1000 :=
  C4_sliding_window_scenario 0 1 2 (by decide) (by decide) (by decide)

/-- C5 counterexample: token-bucket `getStatus()` is not a pure read.  With
capacity 5 over 1000 ms, tokens 3 and last refill at 0, a `getStatus()` at
time 100 rewrites the stored state: `lastRefillTime` becomes 100 (and the
token count becomes 3.5), so the stored state is not left unchanged. -/
theorem C5_getStatus_counterexample :
    (tbGetStatus { maxRequests := 5, windowMs := 1000 }
        { tokens := 3, lastRefillTime := 0 } 100).2 ≠
      { tokens := 3, lastRefillTime := 0 } := by
  intro h
  have h100 : (tbGetStatus { maxRequests := 5, windowMs := 1000 }
      { tokens := 3, lastRefillTime := 0 } 100).2.lastRefillTime = 0 :=
    congrArg TBState.lastRefillTime h
  have : (100 : Int) = 0 := h100
  exact absurd this (by decide)

/-- C5 amended: `getStatus()` of the sliding-window limiter reads without
writing (in this embedding `slidingGetStatus` returns no state at all, so the
stored timestamps are untouched by construction), whereas token-bucket
`getStatus()` does mutate the stored `tokens` and `lastRefillTime` through
`refillTokens`; nevertheless this mutation is observationally harmless: with a
monotone clock and a nonnegative configuration, an interposed `getStatus()`
leaves the entire outcome (result and post-state) of the next `isAllowed()`
unchanged. -/
theorem C5_getStatus_transparent (cfg : RateLimitConfig) (st : TBState)
    (t₁ t₂ : Int) (h12 : t₁ ≤ t₂) (hM : 0 ≤ cfg.maxRequests)
    (hW : 0 ≤ cfg.windowMs) :
    tbIsAllowed cfg (tbGetStatus cfg st t₁).2 t₂ = tbIsAllowed cfg st t₂ := by
  have hs : (tbGetStatus cfg st t₁).2 = refillTokens cfg st t₁ := rfl
  rw [hs]
  simp only [tbIsAllowed]
  rw [refillTokens_refillTokens cfg st h12 hM hW]

/-- Witness for C5 at capacity 5 / window 1000, tokens 3, refills at 50 then 100. -/
theorem C5_getStatus_transparent_witness :
    tbIsAllowed { maxRequests := 5, windowMs := 1000 }
        (tbGetStatus { maxRequests := 5, windowMs := 1000 }
          { tokens := 3, lastRefillTime := 0 } 50).2 100 =
      tbIsAllowed { maxRequests := 5, windowMs := 1000 }
        { tokens := 3, lastRefillTime := 0 } 100 :=
  C5_getStatus_transparent { maxRequests := 5, windowMs := 1000 }
    { tokens := 3, lastRefillTime := 0 } 50 100 (by decide) (by decide) (by decide)

/-- C8: the limiter state invariants.  (i) The sliding-window allow/deny
decision is a function of the in-window timestamps only: two stored lists with
the same pruned contents produce identical `isAllowed()` outcomes.  (ii) After
`isAllowed()` every stored timestamp lies inside the current window (for a
positive window).  (iii) After any token-bucket `isAllowed()` the stored token
count never exceeds the capacity `maxRequests`, and (iv) after a successful
consumption it is never negative. -/
theorem C8_limiter_invariants :
    (∀ (cfg : RateLimitConfig) (ts₁ ts₂ : List Int) (now : Int),
        ts₁.filter (fun t => decide (now - cfg.windowMs < t)) =
          ts₂.filter (fun t => decide (now - cfg.windowMs < t)) →
        slidingIsAllowed cfg ts₁ now = slidingIsAllowed cfg ts₂ now) ∧
    (∀ (cfg : RateLimitConfig) (ts : List Int) (now : Int),
        0 < cfg.windowMs →
        ∀ t ∈ (slidingIsAllowed cfg ts now).2, now - cfg.windowMs < t) ∧
    (∀ (cfg : RateLimitConfig) (st : TBState) (now : Int),
        (tbIsAllowed cfg st now).2.tokens ≤ (cfg.maxRequests : ℚ)) ∧
    (∀ (cfg : RateLimitConfig) (st : TBState) (now : Int),
        (tbIsAllowed cfg st now).1.allowed = true →
        0 ≤ (tbIsAllowed cfg st now).2.tokens) := by
  refine ⟨?_, ?_, ?_, ?_⟩
  · intro cfg ts₁ ts₂ now h
    simp only [slidingIsAllowed]
    rw [h]
  · intro cfg ts now hW t ht
    simp only [slidingIsAllowed] at ht
    split_ifs at ht with hfull
    · exact (List.mem_filter.1 ht).2 |> of_decide_eq_true
    · rcases List.mem_append.1 ht with hin | hin
      · exact (List.mem_filter.1 hin).2 |> of_decide_eq_true
      · have : t = now := List.mem_singleton.1 hin
        omega
  · intro cfg st now
    simp only [tbIsAllowed]
    split_ifs with hlt
    · exact jsMin_le_left _ _
    · have h := jsMin_le_left (cfg.maxRequests : ℚ)
        (st.tokens + ((now - st.lastRefillTime : Int) : ℚ) *
          ((cfg.maxRequests : ℚ) / (cfg.windowMs : ℚ)))
      simp only [refillTokens]
      have h1 : (refillTokens cfg st now).tokens ≤ (cfg.maxRequests : ℚ) :=
        jsMin_le_left _ _
      simp only [refillTokens] at h1
      linarith
  · intro cfg st now h
    simp only [tbIsAllowed] at h ⊢
    split_ifs at h ⊢ with hlt
    · push_neg at hlt
      simp only
      linarith

/-- Witness for C8 at concrete limiter states (window 1000 ms). -/
theorem C8_limiter_invariants_witness :
    slidingIsAllowed { maxRequests := 2, windowMs := 1000 } [0, 500] 600 =
      slidingIsAllowed { maxRequests := 2, windowMs := 1000 } [-2000, 0, 500] 600 ∧
    (∀ t ∈ (slidingIsAllowed { maxRequests := 2, windowMs := 1000 } [0] 600).2,
      600 - (1000 : Int) < t) ∧
    (tbIsAllowed { maxRequests := 5, windowMs := 1000 }
        { tokens := 3, lastRefillTime := 0 } 100).2.tokens ≤ ((5 : Int) : ℚ) ∧
    0 ≤ (tbIsAllowed { maxRequests := 5, windowMs := 1000 }
        { tokens := 3, lastRefillTime := 0 } 100).2.tokens := by
  refine ⟨?_, ?_, ?_, ?_⟩
  · exact C8_limiter_invariants.1 { maxRequests := 2, windowMs := 1000 }
      [0, 500] [-2000, 0, 500] 600 (by decide)
  · exact C8_limiter_invariants.2.1 { maxRequests := 2, windowMs := 1000 }
      [0] 600 (by decide)
  · exact C8_limiter_invariants.2.2.1 { maxRequests := 5, windowMs := 1000 }
      { tokens := 3, lastRefillTime := 0 } 100
  · refine C8_limiter_invariants.2.2.2 { maxRequests := 5, windowMs := 1000 }
      { tokens := 3, lastRefillTime := 0 } 100 ?_
    norm_num [tbIsAllowed, refillTokens, jsMin]

/-- C9: for either limiter algorithm, once `isAllowed()` has denied (the quota
is exhausted), `reset()` restores the initial capacity: the next `isAllowed()`
on the reset state answers `allowed: true` (for any usable configuration,
`maxRequests ≥ 1`; for the token bucket also a nonnegative window and a clock
that does not run backwards from the reset instant). -/
theorem C9_reset_restores_capacity :
    (∀ (cfg : RateLimitConfig) (ts : List Int) (now₀ nowR : Int),
        1 ≤ cfg.maxRequests →
        (slidingIsAllowed cfg ts now₀).1.allowed = false →
        (slidingIsAllowed cfg slidingReset nowR).1.allowed = true) ∧
    (∀ (cfg : RateLimitConfig) (st : TBState) (now₀ nowR now₁ : Int),
        1 ≤ cfg.maxRequests → 0 ≤ cfg.windowMs → nowR ≤ now₁ →
        (tbIsAllowed cfg st now₀).1.allowed = false →
        (tbIsAllowed cfg (tbReset cfg nowR) now₁).1.allowed = true) := by
  constructor
  · intro cfg ts now₀ nowR hM _
    simp only [slidingIsAllowed, slidingReset, List.filter_nil, List.length_nil]
    rw [if_neg (by push_cast; omega)]
  · intro cfg st now₀ nowR now₁ hM hW hmono _
    simp only [tbIsAllowed, tbReset, refillTokens]
    have hr : (0 : ℚ) ≤ ((now₁ - nowR : Int) : ℚ) *
        ((cfg.maxRequests : ℚ) / (cfg.windowMs : ℚ)) := by
      apply mul_nonneg
      · have : (0 : Int) ≤ now₁ - nowR := by omega
        exact_mod_cast this
      · apply div_nonneg
        · exact_mod_cast (by omega : (0 : Int) ≤ cfg.maxRequests)
        · exact_mod_cast hW
    rw [jsMin_add_of_nonneg hr]
    rw [if_neg (not_lt.2 (by exact_mod_cast hM))]

/-- Witness for C9: both limiters, denied at a concrete exhausted state, allow
again right after `reset()`. -/
theorem C9_reset_restores_capacity_witness :
    (slidingIsAllowed { maxRequests := 2, windowMs := 1000 } slidingReset 5).1.allowed = true ∧
    (tbIsAllowed { maxRequests := 5, windowMs := 1000 }
      (tbReset { maxRequests := 5, windowMs := 1000 } 10) 10).1.allowed = true := by
  constructor
  · exact C9_reset_restores_capacity.1 { maxRequests := 2, windowMs := 1000 }
      [0, 1] 2 5 (by decide) (by decide)
  · refine C9_reset_restores_capacity.2 { maxRequests := 5, windowMs := 1000 }
      { tokens := 0, lastRefillTime := 0 } 0 10 10 (by decide) (by decide)
      (by decide) ?_
    norm_num [tbIsAllowed, refillTokens, jsMin]

/-- C3 counterexample: in the RDAP variant, an upstream failure (the registry
answers HTTP 429) resolves to `{url, status: Error}` but records no
`DomainCheckError`: starting from an empty error slot, `lastError` is still
`none` after the call, contradicting the claim that every failure mode leaves
a recorded `DomainCheckError`. -/
theorem C3_no_recorded_error_counterexample :
    (RdapService.checkOne rdapEnv429 stEmpty 0 "foo.com").res.status = .Error ∧
    (RdapService.checkOne rdapEnv429 stEmpty 0 "foo.com").state.lastError = none := by
  decide

/-- C3 amended: viewed through the service-level `checkDomain`, both variants
never throw — every thrown inner error is converted into
`{url: cleanDomain, status: Error}` (conjuncts 1 and 3).  A `DomainCheckError`
is recorded on every throwing path, with two carve-outs the code forces:
the WhoisXML variant leaves the slot untouched when the thrown message
mentions "limit"/"rate" and nothing was recorded before (conjunct 2, the
rethrow path), and the RDAP variant records nothing for upstream registry
failures, which the RDAP library folds into a successful `DomainResult` with
status `Error` (conjunct 4: on the non-throwing path the slot is simply
carried over, even when the registry outcome is `Error`). -/
theorem C3_lookup_no_throw_amended :
    (∀ (env : WhoisService.Env) (st : ServiceState) (k : Nat) (d : String)
       (e : JsError),
        (WhoisService.checkWithWhoisXML env st k (jsClean d)).res = .error e →
        (WhoisService.checkOne env st k d).res =
          { url := jsClean d, status := .Error }) ∧
    (∀ (env : WhoisService.Env) (st : ServiceState) (k : Nat) (c : String)
       (e : JsError),
        (WhoisService.checkWithWhoisXML env st k c).res = .error e →
        (WhoisService.checkWithWhoisXML env st k c).state.lastError ≠ none ∨
          (st.lastError = none ∧
            (jsIncludes e.message "limit" || jsIncludes e.message "rate") = true)) ∧
    (∀ (env : RdapService.Env) (st : ServiceState) (k : Nat) (d : String)
       (e : JsError),
        (RdapService.checkWithRDAP env st k (jsClean d)).res = .error e →
        (RdapService.checkOne env st k d).res =
          { url := jsClean d, status := .Error } ∧
        (RdapService.checkOne env st k d).state.lastError ≠ none) ∧
    (∀ (env : RdapService.Env) (st : ServiceState) (k : Nat) (d : String)
       (r : DomainResult),
        (RdapService.checkWithRDAP env st k (jsClean d)).res = .ok r →
        (RdapService.checkOne env st k d).res = r ∧
        (RdapService.checkOne env st k d).state.lastError = st.lastError ∧
        ((rdapCheckDomain env.fetch (jsClean d)).status = .Error →
          r.status = .Error)) := by
  refine ⟨?_, ?_, ?_, ?_⟩
  · intro env st k d e h
    rw [WhoisService.whoisCheckOne_of_error env st k d e h]
  · intro env st k c e h
    exact WhoisService.checkWith_res_error_lastError env st k c e h
  · intro env st k d e h
    rw [RdapService.rdapCheckOne_of_error env st k d e h]
    by_cases hv : validateDomain (jsClean d) = false
    · rw [RdapService.checkWithRDAP_invalid env st k (jsClean d) hv]
      exact ⟨rfl, by simp⟩
    · have hv' : validateDomain (jsClean d) = true := by
        cases hq : validateDomain (jsClean d)
        · exact absurd hq hv
        · rfl
      by_cases hr :
          (slidingGetStatus serviceCfg st.limiterTs (env.clock k)).allowed = false
      · rw [RdapService.checkWithRDAP_denied env st k (jsClean d) hv' hr]
        exact ⟨rfl, by simp⟩
      · have hr' :
            (slidingGetStatus serviceCfg st.limiterTs (env.clock k)).allowed = true := by
          cases hq : (slidingGetStatus serviceCfg st.limiterTs (env.clock k)).allowed
          · exact absurd hq hr
          · rfl
        rw [RdapService.checkWithRDAP_granted env st k (jsClean d) hv' hr'] at h
        cases h
  · intro env st k d r h
    rw [RdapService.rdapCheckOne_of_ok env st k d r h]
    by_cases hv : validateDomain (jsClean d) = false
    · rw [RdapService.checkWithRDAP_invalid env st k (jsClean d) hv] at h
      cases h
    · have hv' : validateDomain (jsClean d) = true := by
        cases hq : validateDomain (jsClean d)
        · exact absurd hq hv
        · rfl
      by_cases hr :
          (slidingGetStatus serviceCfg st.limiterTs (env.clock k)).allowed = false
      · rw [RdapService.checkWithRDAP_denied env st k (jsClean d) hv' hr] at h
        cases h
      · have hr' :
            (slidingGetStatus serviceCfg st.limiterTs (env.clock k)).allowed = true := by
          cases hq : (slidingGetStatus serviceCfg st.limiterTs (env.clock k)).allowed
          · exact absurd hq hr
          · rfl
        have hcw := RdapService.checkWithRDAP_granted env st k (jsClean d) hv' hr'
        rw [hcw] at h ⊢
        simp only [Except.ok.injEq] at h
        subst h
        refine ⟨rfl, ?_, ?_⟩
        · exact recordRequest_lastError st (env.clock (k + 1))
        · intro hErr
          show (RdapService.convertRdapResult (rdapCheckDomain env.fetch (jsClean d))).status = .Error
          rw [RdapService.convertRdapResult]
          exact hErr

/-- Witness for C3 amended: with no API key configured the WhoisXML variant
throws internally, the wrapper resolves to an Error result, and an error is
recorded; with a 404 answer the RDAP variant resolves `"foo.com"` to
Available. -/
theorem C3_lookup_no_throw_amended_witness :
    (WhoisService.checkOne whoisEnvNoKey stEmpty 0 "foo.com").res =
      { url := jsClean "foo.com", status := .Error } ∧
    ((WhoisService.checkWithWhoisXML whoisEnvNoKey stEmpty 0 "foo.com").state.lastError ≠ none ∨
      (stEmpty.lastError = none ∧
        (jsIncludes
            (JsError.message
              { name := "Error",
                message := "API key not configured. Please set WHOISXML_API_KEY in your .env file." })
            "limit" ||
          jsIncludes
            (JsError.message
              { name := "Error",
                message := "API key not configured. Please set WHOISXML_API_KEY in your .env file." })
            "rate") = true)) ∧
    (RdapService.checkOne rdapEnv404 stEmpty 0 "foo.com").res =
      { url := "foo.com", status := .Available } := by
  refine ⟨?_, ?_, ?_⟩
  · exact C3_lookup_no_throw_amended.1 whoisEnvNoKey stEmpty 0 "foo.com"
      { name := "Error",
        message := "API key not configured. Please set WHOISXML_API_KEY in your .env file." }
      (by decide)
  · exact C3_lookup_no_throw_amended.2.1 whoisEnvNoKey stEmpty 0 "foo.com"
      { name := "Error",
        message := "API key not configured. Please set WHOISXML_API_KEY in your .env file." }
      (by decide)
  · exact (C3_lookup_no_throw_amended.2.2.2 rdapEnv404 stEmpty 0 "foo.com"
      { url := "foo.com", status := .Available } (by decide)).1

/-- C6: `checkDomains` (both variants, which instantiate `checkDomainsG` with
their checker) caps each batch at `MAX_DOMAINS_PER_BATCH = 10`: at most 10
registry lookups are issued, the result sequence has `min (length, 10)`
entries, and the run on any input equals the run on its first 10 domains —
inputs beyond the cap are dropped.  Conjuncts 2 and 3 show each variant
issues at most one registry request per domain, which is what conjunct 1
instantiates. -/
theorem C6_batch_cap :
    (∀ (clock : Nat → Int) (checkOne : ServiceState → Nat → String → StepOut),
        (∀ st k d, (checkOne st k d).calls.length ≤ 1) →
        ∀ (ds : List String) (st : ServiceState) (k : Nat),
          (checkDomainsG clock checkOne ds st k).calls.length ≤ 10 ∧
          (checkDomainsG clock checkOne ds st k).results.length = min ds.length 10 ∧
          checkDomainsG clock checkOne ds st k =
            checkDomainsG clock checkOne (ds.take 10) st k) ∧
    (∀ (env : RdapService.Env) (st : ServiceState) (k : Nat) (d : String),
        (RdapService.checkOne env st k d).calls.length ≤ 1) ∧
    (∀ (env : WhoisService.Env) (st : ServiceState) (k : Nat) (d : String),
        (WhoisService.checkOne env st k d).calls.length ≤ 1) := by
  refine ⟨?_, ?_, ?_⟩
  · intro clock checkOne hc ds st k
    cases ds with
    | nil => refine ⟨?_, ?_, ?_⟩ <;> simp [checkDomainsG]
    | cons d rest =>
      refine ⟨?_, ?_, ?_⟩
      · have h1 := checkLoop_calls_le clock checkOne hc ((d :: rest).take 10) st k
        have h2 : ((d :: rest).take 10).length ≤ 10 := by
          rw [List.length_take]
          omega
        calc (checkDomainsG clock checkOne (d :: rest) st k).calls.length
            ≤ ((d :: rest).take 10).length := h1
          _ ≤ 10 := h2
      · have h1 := checkLoop_length clock checkOne ((d :: rest).take 10) st k
        calc (checkDomainsG clock checkOne (d :: rest) st k).results.length
            = ((d :: rest).take 10).length := h1
          _ = min (d :: rest).length 10 := by rw [List.length_take, Nat.min_comm]
      · show checkLoop clock checkOne ((d :: rest).take 10) st k =
          checkDomainsG clock checkOne ((d :: rest).take 10) st k
        rw [List.take_succ_cons]
        have hle : (d :: rest.take 9).length ≤ 10 := by
          simp only [List.length_cons, List.length_take]
          omega
        show checkLoop clock checkOne (d :: rest.take 9) st k =
          checkLoop clock checkOne ((d :: rest.take 9).take 10) st k
        rw [List.take_of_length_le hle]
  · intro env st k d
    exact RdapService.rdapCheckOne_calls_le env st k d
  · intro env st k d
    exact WhoisService.whoisCheckOne_calls_le env st k d

/-- Witness for C6: a 15-domain batch under the RDAP variant issues at most 10
registry calls, returns `min 15 10` results, and equals the 10-truncated run. -/
theorem C6_batch_cap_witness :
    (checkDomainsG clock0 (RdapService.checkOne rdapEnv404) ds15 stEmpty 0).calls.length ≤ 10 ∧
    (checkDomainsG clock0 (RdapService.checkOne rdapEnv404) ds15 stEmpty 0).results.length =
      min ds15.length 10 ∧
    checkDomainsG clock0 (RdapService.checkOne rdapEnv404) ds15 stEmpty 0 =
      checkDomainsG clock0 (RdapService.checkOne rdapEnv404) (ds15.take 10) stEmpty 0 :=
  C6_batch_cap.1 clock0 (RdapService.checkOne rdapEnv404)
    (C6_batch_cap.2.1 rdapEnv404) ds15 stEmpty 0

/-- C7: a domain failing syntactic validation short-circuits per-domain: when
the limiter currently allows, the loop entry for an invalid `d` yields the
single result `{url: cleanDomain, status: Error}` (no registry request is
added to `calls`), the only state change is the recorded invalid-format
`lastError` — the limiter timestamps and request count are untouched, so no
rate-limit slot is consumed — and the loop then continues with the remaining
domains.  `"not a domain"` is such an input, and it is its own normalisation,
so `checkDomains(["not a domain"])` resolves it to
`{url: "not a domain", status: Error}`. -/
theorem C7_invalid_syntax_short_circuit :
    (∀ (env : RdapService.Env) (st : ServiceState) (k : Nat) (d : String)
       (rest : List String),
        validateDomain (jsClean d) = false →
        (slidingGetStatus serviceCfg st.limiterTs (env.clock k)).allowed = true →
        checkLoop env.clock (RdapService.checkOne env) (d :: rest) st k =
          (let st' : ServiceState :=
            { st with
              lastError := some { type := .api_error, message := "Invalid domain format." } }
           let o := checkLoop env.clock (RdapService.checkOne env) rest st' (k + 1)
           { results := { url := jsClean d, status := .Error } :: o.results,
             state := o.state, clk := o.clk, calls := o.calls,
             processed := o.processed + 1, aborted := o.aborted })) ∧
    validateDomain (jsClean "not a domain") = false ∧
    jsClean "not a domain" = "not a domain" := by
  refine ⟨?_, by decide, by decide⟩
  intro env st k d rest hv hallow
  rw [checkLoop]
  have hnr : isRateLimitReached st (env.clock k) = false := by
    rw [isRateLimitReached, hallow]
    rfl
  rw [if_neg (by simp [hnr])]
  have hcw := RdapService.checkWithRDAP_invalid env st (k + 1) (jsClean d) hv
  have herr : (RdapService.checkWithRDAP env st (k + 1) (jsClean d)).res =
      .error { name := "Error", message := "Invalid domain format." } := by
    rw [hcw]
  have hs := RdapService.rdapCheckOne_of_error env st (k + 1) d _ herr
  rw [hcw] at hs
  rw [hs]
  rfl

/-- Witness for C7: the concrete batch `["not a domain"]` from a fresh state. -/
theorem C7_invalid_syntax_short_circuit_witness :
    checkLoop clock0 (RdapService.checkOne rdapEnv404) ["not a domain"] stEmpty 0 =
      (let st' : ServiceState :=
        { stEmpty with
          lastError := some { type := .api_error, message := "Invalid domain format." } }
       let o := checkLoop clock0 (RdapService.checkOne rdapEnv404) [] st' (0 + 1)
       { results := { url := jsClean "not a domain", status := .Error } :: o.results,
         state := o.state, clk := o.clk, calls := o.calls,
         processed := o.processed + 1, aborted := o.aborted }) :=
  C7_invalid_syntax_short_circuit.1 rdapEnv404 stEmpty 0 "not a domain" []
    (by decide) (by decide)

/-- C10: every path of the service-level `checkDomain` — in both variants —
returns the lowercased-and-trimmed input as `url` (conjuncts 1 and 2; on the
RDAP success path the library normalises a second time, which idempotence
collapses).  Within one batch (conjunct 3): the `url`s of the results are the
normalisation of the first `processed` domains of the truncated batch followed
by the remaining domains verbatim — the Error entries fabricated by the
rate-limit abort carry the raw, un-normalised input. -/
theorem C10_url_normalisation :
    (∀ (env : RdapService.Env) (st : ServiceState) (k : Nat) (d : String),
        (RdapService.checkOne env st k d).res.url = jsClean d) ∧
    (∀ (env : WhoisService.Env) (st : ServiceState) (k : Nat) (d : String),
        (WhoisService.checkOne env st k d).res.url = jsClean d) ∧
    (∀ (env : RdapService.Env) (ds : List String) (st : ServiceState) (k : Nat),
        (RdapService.checkDomains env ds st k).results.map DomainResult.url =
          ((ds.take 10).take (RdapService.checkDomains env ds st k).processed).map jsClean ++
            (ds.take 10).drop (RdapService.checkDomains env ds st k).processed) := by
  refine ⟨?_, ?_, ?_⟩
  · intro env st k d
    exact RdapService.rdapCheckOne_url env st k d
  · intro env st k d
    exact WhoisService.whoisCheckOne_url env st k d
  · intro env ds st k
    cases ds with
    | nil => simp [RdapService.checkDomains, checkDomainsG]
    | cons d rest =>
      exact checkLoop_urls env.clock (RdapService.checkOne env)
        (fun st k d => RdapService.rdapCheckOne_url env st k d)
        ((d :: rest).take 10) st k
